import Mathlib

/-!
Verification of the q4 scientific core (projector learning, quadrant
decomposition, energy accounting, adaptive SVD fitting, model persistence,
tail-statistics features) against its specification.

The Python code works on float64 arrays; the embedding models them as exact
rational matrices (`Matrix (Fin n) (Fin d) ℚ`), so float literals such as
1e-12 become the exact rationals they denote. External numerical routines
(numpy SVD, sklearn decompositions) are modelled as abstract backend
functions whose documented mathematical postconditions appear as explicit
hypotheses where a claim needs them.
-/

namespace Q4

open Matrix

/-- Squared Frobenius norm of a matrix: the sum of the squares of all
entries. This is what the Python expressions `(M**2).sum()` compute. -/
def frobSq {n d : ℕ} (M : Matrix (Fin n) (Fin d) ℚ) : ℚ :=
  ∑ i, ∑ j, (M i j) ^ 2

/-- Embedding of the projector construction in `learn_projectors_linear`
(operator.py lines 17-19), starting from the variant basis `Bv = Vt[:r].T`
returned by the SVD step (either mode): `Pv = Bv @ Bv.T`, then
symmetrised as `Pv = (Pv + Pv.T)/2`. -/
def buildPv {d r : ℕ} (Bv : Matrix (Fin d) (Fin r) ℚ) : Matrix (Fin d) (Fin d) ℚ :=
  (1 / 2 : ℚ) • (Bv * Bvᵀ + (Bv * Bvᵀ)ᵀ)

/-- Embedding of `Ps = np.eye(d) - Pv` (operator.py line 19): the stable
projector is always derived as identity minus `Pv`. -/
def buildPs {d r : ℕ} (Bv : Matrix (Fin d) (Fin r) ℚ) : Matrix (Fin d) (Fin d) ℚ :=
  1 - buildPv Bv

/-- Embedding of `energy_split` (operator.py lines 32-37):
`S = X @ Ps`, `V = X @ Pv`, numerator `(S**2).sum() + (V**2).sum()`,
denominator `(X**2).sum() + 1e-12`, returning `num/den`. The function body
has no tolerance check and no failure path. -/
def energySplit {n d : ℕ} (X : Matrix (Fin n) (Fin d) ℚ)
    (Ps Pv : Matrix (Fin d) (Fin d) ℚ) : ℚ :=
  let S := X * Ps
  let V := X * Pv
  let num := frobSq S + frobSq V
  let den := frobSq X + 1 / 10 ^ 12
  num / den

/-- Row-wise squared L2 norm: the square of `np.linalg.norm(M, axis=1)`. -/
def rowNormSq {n d : ℕ} (M : Matrix (Fin n) (Fin d) ℚ) (i : Fin n) : ℚ :=
  ∑ j, (M i j) ^ 2

/-- The Q_study summary dictionary of `four_quadrants`: the removed column
mean of the variant component and the nonzero-variant row fraction. -/
structure QStudy (d : ℕ) where
  mu_V : Fin d → ℚ
  rate : ℚ

/-- The ad hoc result object of `four_quadrants` (operator.py line 30),
with its attributes S, V, Q_keep, Q_discard, Q_study and Archive. The
typing records that Q_keep and Q_discard have the same shape as X. -/
structure QuadrantResult (n d : ℕ) where
  S : Matrix (Fin n) (Fin d) ℚ
  V : Matrix (Fin n) (Fin d) ℚ
  Q_keep : Matrix (Fin n) (Fin d) ℚ
  Q_discard : Matrix (Fin n) (Fin d) ℚ
  Q_study : QStudy d
  Archive : Matrix (Fin n) (Fin d) ℚ × Matrix (Fin n) (Fin d) ℚ

/-- Embedding of `four_quadrants` (operator.py lines 22-30):
`S = X @ Ps.T`, `V = X @ Pv.T`, `muV = V.mean(axis=0)`, `Q_keep = S.copy()`,
`Q_discard = V - muV`, and
`rate = np.mean(np.linalg.norm(Q_discard, axis=1) > 1e-8)`. The norm
comparison `norm > 1e-8` is embedded as the equivalent comparison of
squares `normSq > (1e-8)^2`, which keeps the computation inside ℚ (both
sides are non-negative, and squaring is strictly monotone there). -/
def fourQuadrants {n d : ℕ} (X : Matrix (Fin n) (Fin d) ℚ)
    (Ps Pv : Matrix (Fin d) (Fin d) ℚ) : QuadrantResult n d :=
  let S := X * Psᵀ
  let V := X * Pvᵀ
  let muV : Fin d → ℚ := fun j => (∑ i, V i j) / n
  let Qd : Matrix (Fin n) (Fin d) ℚ := Matrix.of fun i j => V i j - muV j
  { S := S, V := V, Q_keep := S, Q_discard := Qd,
    Q_study :=
      { mu_V := muV,
        rate := ((Finset.univ.filter fun i : Fin n =>
            ((1 : ℚ) / 10 ^ 8) ^ 2 < rowNormSq Qd i).card : ℚ) / n },
    Archive := (S, V) }

/-- The SVDModel dataclass (svd_ops.py lines 9-13): centering vector `mu`
of length d, component matrix of shape k x d, explained-variance vector of
length k. -/
structure SVDModel (d k : ℕ) where
  mu : Fin d → ℚ
  components : Matrix (Fin k) (Fin d) ℚ
  explained_var : Fin k → ℚ

/-- The metadata record written by `save`: either the valid
record with fields dims and k, or malformed content. -/
inductive MetaFile
  | valid (dims : ℕ) (k : ℕ)
  | malformed

/-- A model directory on disk, one optional slot per artifact (`none`
means the file is absent). -/
structure ModelDir (d k : ℕ) where
  muFile : Option (Fin d → ℚ)
  componentsFile : Option (Matrix (Fin k) (Fin d) ℚ)
  evFile : Option (Fin k → ℚ)
  metaFile : Option MetaFile

/-- Embedding of `SVDModel.save` (svd_ops.py lines 15-21): writes the
three numeric arrays with `np.save` (which round-trips float64 arrays
bit-exactly) and the metadata record with dims = mu.shape[0] and
k = components.shape[0], overwriting whatever the directory held. -/
def SVDModel.save {d k : ℕ} (m : SVDModel d k) (_path : ModelDir d k) : ModelDir d k :=
  { muFile := some m.mu
    componentsFile := some m.components
    evFile := some m.explained_var
    metaFile := some (MetaFile.valid d k) }

/-- Embedding of `SVDModel.load` (svd_ops.py lines 23-28): reads exactly
the three numeric artifacts mu.npy, components.npy and explained_var.npy;
the metadata slot is never consulted. A missing array file is a load
failure (`np.load` raises), modelled as `none`. -/
def SVDModel.load {d k : ℕ} (dir : ModelDir d k) : Option (SVDModel d k) :=
  match dir.muFile, dir.componentsFile, dir.evFile with
  | some mu, some comps, some ev => some ⟨mu, comps, ev⟩
  | _, _, _ => none

/-- The five error conditions named by the specification taxonomy. The q4
code itself never raises any of them; the type exists so that embeddings
of the fallible operations can state which conditions are (not)
signalled. -/
inductive Q4Error
  | invalidInput
  | invalidRank
  | dimensionMismatch
  | consistencyCheckFailed
  | serializationError

/-- Whether an Except value is a success. -/
def isOkE {ε α : Type} : Except ε α → Bool
  | Except.ok _ => true
  | Except.error _ => false

/-- Column-mean matrix: `X.mean(axis=0, keepdims=True)` broadcast back to
the shape of X. -/
def colMeanMat {n d : ℕ} (X : Matrix (Fin n) (Fin d) ℚ) : Matrix (Fin n) (Fin d) ℚ :=
  Matrix.of fun _ j => (∑ i, X i j) / n

/-- Embedding of `learn_projectors_linear` (operator.py lines 4-20),
unsupervised mode (labels is None): centre the columns, take the SVD of
the centred matrix, keep the top r right singular vectors as Bv, build
Pv and Ps. The SVD call is the abstract backend `svdVt`, returning the
stacked right singular vectors (min n d rows, as numpy
`full_matrices=False` produces); `Vt[:r]` keeps its first min r (min n d)
rows. The return type is `Except Q4Error` to record the error behaviour
of the function: the body performs no input validation, so every code
path ends in the plain return of the pair and no error is ever
constructed. -/
def learnProjectorsLinearE {n d : ℕ}
    (svdVt : Matrix (Fin n) (Fin d) ℚ → Matrix (Fin (min n d)) (Fin d) ℚ)
    (X : Matrix (Fin n) (Fin d) ℚ) (r : ℕ) :
    Except Q4Error (Matrix (Fin d) (Fin d) ℚ × Matrix (Fin d) (Fin d) ℚ) :=
  let Xc := X - colMeanMat X
  let Vt := svdVt Xc
  let Bv : Matrix (Fin d) (Fin (min r (min n d))) ℚ :=
    Matrix.of fun j i => Vt (Fin.castLE (Nat.min_le_right r (min n d)) i) j
  let Pv := buildPv Bv
  Except.ok (1 - Pv, Pv)

/-- The trivial SVD backend on a 1 x 0 input, used to evaluate the learn
embedding on an empty matrix (where the singular vector matrix is the
unique empty matrix). -/
def svdStub10 : Matrix (Fin 1) (Fin 0) ℚ → Matrix (Fin (min 1 0)) (Fin 0) ℚ :=
  fun _ => 0

/-- Resolution of the method argument in `fit_svd` (svd_ops.py lines
59-65): "auto" becomes "randomized" when n > 10000 or d > 1000, else
"incremental" when n > 2000, else "truncated"; an explicit method value
passes through unchanged. -/
def resolveMethod (n d : ℕ) (method : String) : String :=
  if method = "auto" then
    if 10000 < n ∨ 1000 < d then "randomized"
    else if 2000 < n then "incremental"
    else "truncated"
  else method

/-- The decomposition backend of `fit_svd`: the sklearn TruncatedSVD /
IncrementalPCA fitted attributes components_ and explained_variance_, as
functions of the method name, the seed and the input matrix. -/
structure SVDBackend (n d k : ℕ) where
  comps : String → ℤ → Matrix (Fin n) (Fin d) ℚ → Matrix (Fin k) (Fin d) ℚ
  ev : String → ℤ → Matrix (Fin n) (Fin d) ℚ → Fin k → ℚ

/-- Embedding of `fit_svd` (svd_ops.py lines 42-96): resolve the method,
run the corresponding sklearn decomposition, and return an SVDModel with
`mu = np.zeros(d)` and the fitted components_ and explained_variance_
passed through unchanged. Any method value other than "randomized" or
"incremental" falls into the TruncatedSVD branch, exactly as the final
else of the code. The return type is `Except Q4Error` to record the error
behaviour: the body performs no rank validation (k is handed to the
backend unchecked), so no error is ever constructed. -/
def fitSvdE {n d k : ℕ} (b : SVDBackend n d k) (Vn : Matrix (Fin n) (Fin d) ℚ)
    (seed : ℤ) (method : String) : Except Q4Error (SVDModel d k) :=
  if resolveMethod n d method = "randomized" then
    Except.ok ⟨0, b.comps "randomized" seed Vn, b.ev "randomized" seed Vn⟩
  else if resolveMethod n d method = "incremental" then
    Except.ok ⟨0, b.comps "incremental" seed Vn, b.ev "incremental" seed Vn⟩
  else
    Except.ok ⟨0, b.comps "truncated" seed Vn, b.ev "truncated" seed Vn⟩

/-- A constant backend on 2 x 2 data with k = 2, used to instantiate the
fit contract on a concrete input. -/
def constBackend : SVDBackend 2 2 2 :=
  { comps := fun _ _ _ => 1, ev := fun _ _ _ _ => 1 }

/-- A stub backend with k = 5 on 2 x 2 data: a rank far beyond
min(n, d) = 2, used to evaluate the fit embedding at an out-of-range
rank. -/
def stubBackend225 : SVDBackend 2 2 5 :=
  { comps := fun _ _ _ => 0, ev := fun _ _ _ _ => 0 }

/-- Linear-interpolation quantile of a list of rationals, as
`np.quantile` computes it with the default interpolation: on the
ascending sort b of the values, with position h = q * (length - 1), the
result is b[floor h] + (h - floor h) * (b[floor h + 1] - b[floor h]),
the upper index clipped to the last element. Modelled for 0 ≤ q ≤ 1 and
a nonempty list, which is how the code calls it. -/
def npQuantile (q : ℚ) (xs : List ℚ) : ℚ :=
  let b := List.insertionSort (· ≤ ·) xs
  let len := xs.length
  let h := q * ((len : ℚ) - 1)
  let lo := min h.floor.toNat (len - 1)
  let hi := min (h.floor.toNat + 1) (len - 1)
  b.getD lo 0 + (h - (h.floor : ℚ)) * (b.getD hi 0 - b.getD lo 0)

/-- The absolute values of column j of Z, in row order: `np.abs(Z)[:, j]`. -/
def colAbsList {n d : ℕ} (Z : Matrix (Fin n) (Fin d) ℚ) (j : Fin d) : List ℚ :=
  (List.finRange n).map fun i => |Z i j|

/-- Per-dimension tail threshold of `compute_qstudy_vectors`
(qstudy_map.py line 14): `tau = np.quantile(np.abs(Z), tail_q, axis=0)`. -/
def tauQ {n d : ℕ} (Z : Matrix (Fin n) (Fin d) ℚ) (tail_q : ℚ) (j : Fin d) : ℚ :=
  npQuantile tail_q (colAbsList Z j)

/-- Per-dimension tail fraction (qstudy_map.py line 17):
`frac_tail = (np.abs(Z) > tau).mean(axis=0)`. -/
def fracTailQ {n d : ℕ} (Z : Matrix (Fin n) (Fin d) ℚ) (tail_q : ℚ) (j : Fin d) : ℚ :=
  ((Finset.univ.filter fun i : Fin n => tauQ Z tail_q j < |Z i j|).card : ℚ) / n

/-- Column mean of Z: `Z.mean(axis=0)`. -/
def colMeanV {n d : ℕ} (Z : Matrix (Fin n) (Fin d) ℚ) (j : Fin d) : ℚ :=
  (∑ i, Z i j) / n

/-- Column variance with ddof = 1, the square of `Z.std(axis=0, ddof=1)`. -/
def colVar {n d : ℕ} (Z : Matrix (Fin n) (Fin d) ℚ) (j : Fin d) : ℚ :=
  (∑ i, (Z i j - colMeanV Z j) ^ 2) / ((n : ℚ) - 1)

/-- Embedding of `compute_qstudy_vectors` (qstudy_map.py lines 13-29) as
the ordered key-value record it builds: the four aggregate features
followed by, for i in range(min(6, Z.shape[1])), the three per-dimension
features of dimension i. The square root inside `Z.std` is not rational,
so it is abstracted as the function argument `sqrtA`; no claim constrains
the std values themselves. -/
def computeQstudyVectors {n d : ℕ} (sqrtA : ℚ → ℚ)
    (Z : Matrix (Fin n) (Fin d) ℚ) (tail_q : ℚ) : List (String × ℚ) :=
  let stdv : Fin d → ℚ := fun j => sqrtA (colVar Z j)
  let base : List (String × ℚ) :=
    [("mean_absV", (∑ i, ∑ j, |Z i j|) / ((n : ℚ) * d)),
     ("std_mean", (∑ j, stdv j) / d),
     ("frac_tail_mean", (∑ j, fracTailQ Z tail_q j) / d),
     ("energy", (∑ i, ∑ j, (Z i j) ^ 2) / n)]
  base ++ ((List.finRange d).take 6).flatMap fun j =>
    [("comp" ++ toString j.val ++ "_mean", colMeanV Z j),
     ("comp" ++ toString j.val ++ "_std", stdv j),
     ("comp" ++ toString j.val ++ "_tail", fracTailQ Z tail_q j)]

end Q4

namespace Q4

open Matrix

lemma buildPv_eq {d r : ℕ} (Bv : Matrix (Fin d) (Fin r) ℚ) :
    buildPv Bv = Bv * Bvᵀ := by
  unfold buildPv
  rw [Matrix.transpose_mul, Matrix.transpose_transpose, ← two_smul ℚ (Bv * Bvᵀ),
    smul_smul]
  norm_num

lemma buildPv_idem {d r : ℕ} (Bv : Matrix (Fin d) (Fin r) ℚ)
    (h : Bvᵀ * Bv = 1) : buildPv Bv * buildPv Bv = buildPv Bv := by
  rw [buildPv_eq, Matrix.mul_assoc, ← Matrix.mul_assoc Bvᵀ Bv Bvᵀ, h,
    Matrix.one_mul]

/-- C1: the projector pair produced by `learn_projectors_linear` satisfies
the four invariants. `Bv` stands for the matrix of top right singular
vectors selected from the SVD step; the hypothesis `Bvᵀ * Bv = 1` is the
defining orthonormality of right singular vectors. Over exact arithmetic
all four invariants hold exactly, hence within any tolerance such as
1e-8; completeness `Ps + Pv = 1` holds by construction (`Ps = 1 - Pv`). -/
theorem C1_projector_invariants {d r : ℕ} (Bv : Matrix (Fin d) (Fin r) ℚ)
    (h : Bvᵀ * Bv = 1) :
    buildPs Bv * buildPs Bv = buildPs Bv ∧
    buildPv Bv * buildPv Bv = buildPv Bv ∧
    buildPs Bv * buildPv Bv = 0 ∧
    buildPs Bv + buildPv Bv = 1 := by
  have hidem := buildPv_idem Bv h
  refine ⟨?_, hidem, ?_, ?_⟩
  · unfold buildPs
    rw [sub_mul, one_mul, mul_sub, mul_one, hidem]
    abel
  · unfold buildPs
    rw [sub_mul, one_mul, hidem, sub_self]
  · unfold buildPs
    abel

lemma frobSq_eq_trace {n d : ℕ} (M : Matrix (Fin n) (Fin d) ℚ) :
    frobSq M = Matrix.trace (Mᵀ * M) := by
  unfold frobSq Matrix.trace
  simp only [Matrix.diag_apply, Matrix.mul_apply, Matrix.transpose_apply, pow_two]
  exact Finset.sum_comm

lemma frobSq_nonneg {n d : ℕ} (M : Matrix (Fin n) (Fin d) ℚ) : 0 ≤ frobSq M :=
  Finset.sum_nonneg fun _ _ => Finset.sum_nonneg fun _ _ => sq_nonneg _

lemma frobSq_mul_proj {n d : ℕ} (X : Matrix (Fin n) (Fin d) ℚ)
    (P : Matrix (Fin d) (Fin d) ℚ) (hsym : Pᵀ = P) (hidem : P * P = P) :
    frobSq (X * P) = Matrix.trace (Xᵀ * X * P) := by
  rw [frobSq_eq_trace, Matrix.transpose_mul, hsym]
  calc Matrix.trace (P * Xᵀ * (X * P))
      = Matrix.trace (X * P * (P * Xᵀ)) := Matrix.trace_mul_comm _ _
    _ = Matrix.trace (X * P * Xᵀ) := by
        rw [Matrix.mul_assoc X P (P * Xᵀ), ← Matrix.mul_assoc P P Xᵀ, hidem,
          ← Matrix.mul_assoc X P Xᵀ]
    _ = Matrix.trace (Xᵀ * (X * P)) := Matrix.trace_mul_comm _ _
    _ = Matrix.trace (Xᵀ * X * P) := by rw [Matrix.mul_assoc]

/-- Exact energy conservation: for a symmetric idempotent complementary
pair the numerator of `energy_split` equals the squared Frobenius norm of
the input. -/
lemma energy_conserved {n d : ℕ} (X : Matrix (Fin n) (Fin d) ℚ)
    (Ps Pv : Matrix (Fin d) (Fin d) ℚ)
    (hs : Psᵀ = Ps) (hsi : Ps * Ps = Ps) (hv : Pvᵀ = Pv) (hvi : Pv * Pv = Pv)
    (hc : Ps + Pv = 1) :
    frobSq (X * Ps) + frobSq (X * Pv) = frobSq X := by
  rw [frobSq_mul_proj X Ps hs hsi, frobSq_mul_proj X Pv hv hvi,
    ← Matrix.trace_add, ← Matrix.mul_add, hc, Matrix.mul_one, frobSq_eq_trace]

lemma e1_orthonormal : (!![(1 : ℚ); 0])ᵀ * !![(1 : ℚ); 0] = 1 := by
  ext i j
  fin_cases i
  fin_cases j
  simp [Matrix.mul_apply, Fin.sum_univ_two]

/-- C1 witness: the concrete orthonormal basis `Bv = (1, 0)ᵀ` in dimension
d = 2, r = 1 satisfies the hypothesis and therefore the invariants. -/
theorem C1_projector_invariants_witness :
    ((!![(1 : ℚ); 0])ᵀ * !![(1 : ℚ); 0] = 1) ∧
    (buildPs !![(1 : ℚ); 0] * buildPs !![(1 : ℚ); 0] = buildPs !![(1 : ℚ); 0] ∧
     buildPv !![(1 : ℚ); 0] * buildPv !![(1 : ℚ); 0] = buildPv !![(1 : ℚ); 0] ∧
     buildPs !![(1 : ℚ); 0] * buildPv !![(1 : ℚ); 0] = 0 ∧
     buildPs !![(1 : ℚ); 0] + buildPv !![(1 : ℚ); 0] = 1) :=
  ⟨e1_orthonormal, C1_projector_invariants !![(1 : ℚ); 0] e1_orthonormal⟩

end Q4

namespace Q4

open Matrix

/-- C2 counterexample: on the 2x2 zero matrix, with the projector pair the
learn construction yields from the orthonormal basis (1, 0)ᵀ (which is what
the SVD step produces on a centred zero matrix), energy_split returns 0,
which is not within 1e-2 of 1.0. This refutes the claim that the returned
value is within 1e-2 of 1.0 for every finite X. -/
theorem C2_energy_ratio_counterexample :
    energySplit (0 : Matrix (Fin 2) (Fin 2) ℚ)
        (buildPs !![(1 : ℚ); 0]) (buildPv !![(1 : ℚ); 0]) = 0 ∧
    1 / 100 < |energySplit (0 : Matrix (Fin 2) (Fin 2) ℚ)
        (buildPs !![(1 : ℚ); 0]) (buildPv !![(1 : ℚ); 0]) - 1| := by
  have h : energySplit (0 : Matrix (Fin 2) (Fin 2) ℚ)
      (buildPs !![(1 : ℚ); 0]) (buildPv !![(1 : ℚ); 0]) = 0 := by
    unfold energySplit
    simp [frobSq]
  refine ⟨h, ?_⟩
  rw [h]
  norm_num

/-- C2 amended: energy_split returns
(frobSq (X Ps) + frobSq (X Pv)) / (frobSq X + 1e-12); whenever Ps, Pv form a
symmetric idempotent complementary pair this equals
frobSq X / (frobSq X + 1e-12), and the returned value is within 1e-2 of 1.0
provided frobSq X is at least 1e-10 (the X = 0 case shows the bound fails
for arbitrarily small inputs). -/
theorem C2_energy_ratio_amended {n d : ℕ} (X : Matrix (Fin n) (Fin d) ℚ)
    (Ps Pv : Matrix (Fin d) (Fin d) ℚ)
    (hs : Psᵀ = Ps) (hsi : Ps * Ps = Ps) (hv : Pvᵀ = Pv) (hvi : Pv * Pv = Pv)
    (hc : Ps + Pv = 1) (hbig : 1 / 10 ^ 10 ≤ frobSq X) :
    energySplit X Ps Pv = frobSq X / (frobSq X + 1 / 10 ^ 12) ∧
    |energySplit X Ps Pv - 1| ≤ 1 / 100 := by
  have ht0 : 0 ≤ frobSq X := frobSq_nonneg X
  have hden : (0 : ℚ) < frobSq X + 1 / 10 ^ 12 := by
    have : (0 : ℚ) < 1 / 10 ^ 12 := by norm_num
    linarith
  have hmain : energySplit X Ps Pv = frobSq X / (frobSq X + 1 / 10 ^ 12) := by
    show (frobSq (X * Ps) + frobSq (X * Pv)) / (frobSq X + 1 / 10 ^ 12) =
      frobSq X / (frobSq X + 1 / 10 ^ 12)
    rw [energy_conserved X Ps Pv hs hsi hv hvi hc]
  have h99 : (99 / 100 : ℚ) ≤ frobSq X / (frobSq X + 1 / 10 ^ 12) := by
    rw [le_div_iff₀ hden]
    linarith
  have hle1 : frobSq X / (frobSq X + 1 / 10 ^ 12) ≤ 1 := by
    rw [div_le_one hden]
    linarith
  refine ⟨hmain, ?_⟩
  rw [hmain, abs_le]
  constructor <;> linarith

lemma frobSq_one_two : frobSq (1 : Matrix (Fin 2) (Fin 2) ℚ) = 2 := by
  simp [frobSq, Fin.sum_univ_two, Matrix.one_apply]

/-- C2 witness: the amended statement instantiated on the 2x2 identity
matrix with the trivial complementary pair Ps = 1, Pv = 0. -/
theorem C2_energy_ratio_amended_witness :
    ((1 : Matrix (Fin 2) (Fin 2) ℚ)ᵀ = 1 ∧
     (1 : Matrix (Fin 2) (Fin 2) ℚ) * 1 = 1 ∧
     (0 : Matrix (Fin 2) (Fin 2) ℚ)ᵀ = 0 ∧
     (0 : Matrix (Fin 2) (Fin 2) ℚ) * 0 = 0 ∧
     (1 : Matrix (Fin 2) (Fin 2) ℚ) + 0 = 1 ∧
     (1 / 10 ^ 10 : ℚ) ≤ frobSq (1 : Matrix (Fin 2) (Fin 2) ℚ)) ∧
    (energySplit (1 : Matrix (Fin 2) (Fin 2) ℚ) 1 0 =
      frobSq (1 : Matrix (Fin 2) (Fin 2) ℚ) /
        (frobSq (1 : Matrix (Fin 2) (Fin 2) ℚ) + 1 / 10 ^ 12) ∧
     |energySplit (1 : Matrix (Fin 2) (Fin 2) ℚ) 1 0 - 1| ≤ 1 / 100) :=
  ⟨⟨Matrix.transpose_one, one_mul 1, Matrix.transpose_zero, mul_zero 0,
    add_zero 1, by rw [frobSq_one_two]; norm_num⟩,
   C2_energy_ratio_amended (1 : Matrix (Fin 2) (Fin 2) ℚ) 1 0
     Matrix.transpose_one (one_mul 1) Matrix.transpose_zero (mul_zero 0)
     (add_zero 1) (by rw [frobSq_one_two]; norm_num)⟩

/-- C3 counterexample: energy_split has no failure path. On the 2x2
identity with Ps = Pv = 0 the conservation ratio is 0, far outside the
0.01 tolerance, yet the function simply returns that value; no
ConsistencyCheckFailed condition is signalled (the code body is a plain
return of num/den with no check). -/
theorem C3_consistency_check_counterexample :
    energySplit (1 : Matrix (Fin 2) (Fin 2) ℚ) 0 0 = 0 ∧
    1 / 100 < |energySplit (1 : Matrix (Fin 2) (Fin 2) ℚ) 0 0 - 1| := by
  have h : energySplit (1 : Matrix (Fin 2) (Fin 2) ℚ) 0 0 = 0 := by
    unfold energySplit
    simp [frobSq]
  refine ⟨h, ?_⟩
  rw [h]
  norm_num

/-- C3 amended: energy_split never signals any failure condition; it is a
total computation that unconditionally returns the ratio
(a non-negative value) for every input, including inputs whose deviation
from 1 exceeds the 0.01 tolerance. Tolerance enforcement is left entirely
to callers. -/
theorem C3_consistency_check_amended {n d : ℕ} (X : Matrix (Fin n) (Fin d) ℚ)
    (Ps Pv : Matrix (Fin d) (Fin d) ℚ) : 0 ≤ energySplit X Ps Pv := by
  unfold energySplit
  apply div_nonneg
  · exact add_nonneg (frobSq_nonneg _) (frobSq_nonneg _)
  · have := frobSq_nonneg X
    have h : (0 : ℚ) < 1 / 10 ^ 12 := by norm_num
    linarith

end Q4

namespace Q4

open Matrix

/-- C6: the quadrant split returns S and V as stated, Q_keep = S,
Q_discard = V minus its own column mean with that mean reported as
Q_study.mu_V, and Q_study.rate is the fraction of rows whose discard-row
norm exceeds 1e-8, which always lies in [0, 1]. The shape contract
(Q_keep and Q_discard of the same shape as X) is enforced by the result
type QuadrantResult n d. -/
theorem C6_four_quadrants_contract {n d : ℕ} (X : Matrix (Fin n) (Fin d) ℚ)
    (Ps Pv : Matrix (Fin d) (Fin d) ℚ) (hn : 0 < n) :
    (fourQuadrants X Ps Pv).Q_keep = X * Psᵀ ∧
    (fourQuadrants X Ps Pv).V = X * Pvᵀ ∧
    (∀ j, (fourQuadrants X Ps Pv).Q_study.mu_V j = (∑ i, (X * Pvᵀ) i j) / n) ∧
    (∀ i j, (fourQuadrants X Ps Pv).Q_discard i j =
      (X * Pvᵀ) i j - (fourQuadrants X Ps Pv).Q_study.mu_V j) ∧
    (fourQuadrants X Ps Pv).Q_study.rate =
      ((Finset.univ.filter fun i : Fin n =>
        ((1 : ℚ) / 10 ^ 8) ^ 2 < rowNormSq (fourQuadrants X Ps Pv).Q_discard i).card : ℚ) / n ∧
    0 ≤ (fourQuadrants X Ps Pv).Q_study.rate ∧
    (fourQuadrants X Ps Pv).Q_study.rate ≤ 1 := by
  have hrate : (fourQuadrants X Ps Pv).Q_study.rate =
      ((Finset.univ.filter fun i : Fin n =>
        ((1 : ℚ) / 10 ^ 8) ^ 2 < rowNormSq (fourQuadrants X Ps Pv).Q_discard i).card : ℚ) / n := rfl
  refine ⟨rfl, rfl, fun j => rfl, fun i j => rfl, hrate, ?_, ?_⟩
  · rw [hrate]
    exact div_nonneg (Nat.cast_nonneg _) (Nat.cast_nonneg _)
  · rw [hrate, div_le_one (by exact_mod_cast hn)]
    have h := Finset.card_filter_le (Finset.univ : Finset (Fin n)) fun i =>
      ((1 : ℚ) / 10 ^ 8) ^ 2 < rowNormSq (fourQuadrants X Ps Pv).Q_discard i
    have h2 : (Finset.univ : Finset (Fin n)).card = n := by simp
    exact_mod_cast h.trans_eq h2

/-- C6 witness: the quadrant contract instantiated on the 2x2 identity
input with Ps = 1, Pv = 0. -/
theorem C6_four_quadrants_contract_witness :
    (0 < 2) ∧
    ((fourQuadrants (1 : Matrix (Fin 2) (Fin 2) ℚ) 1 0).Q_keep = 1 * (1 : Matrix (Fin 2) (Fin 2) ℚ)ᵀ ∧
     (fourQuadrants (1 : Matrix (Fin 2) (Fin 2) ℚ) 1 0).V = 1 * (0 : Matrix (Fin 2) (Fin 2) ℚ)ᵀ ∧
     (∀ j, (fourQuadrants (1 : Matrix (Fin 2) (Fin 2) ℚ) 1 0).Q_study.mu_V j =
       (∑ i, ((1 : Matrix (Fin 2) (Fin 2) ℚ) * (0 : Matrix (Fin 2) (Fin 2) ℚ)ᵀ) i j) / 2) ∧
     (∀ i j, (fourQuadrants (1 : Matrix (Fin 2) (Fin 2) ℚ) 1 0).Q_discard i j =
       ((1 : Matrix (Fin 2) (Fin 2) ℚ) * (0 : Matrix (Fin 2) (Fin 2) ℚ)ᵀ) i j -
       (fourQuadrants (1 : Matrix (Fin 2) (Fin 2) ℚ) 1 0).Q_study.mu_V j) ∧
     (fourQuadrants (1 : Matrix (Fin 2) (Fin 2) ℚ) 1 0).Q_study.rate =
       ((Finset.univ.filter fun i : Fin 2 =>
         ((1 : ℚ) / 10 ^ 8) ^ 2 <
           rowNormSq (fourQuadrants (1 : Matrix (Fin 2) (Fin 2) ℚ) 1 0).Q_discard i).card : ℚ) / 2 ∧
     0 ≤ (fourQuadrants (1 : Matrix (Fin 2) (Fin 2) ℚ) 1 0).Q_study.rate ∧
     (fourQuadrants (1 : Matrix (Fin 2) (Fin 2) ℚ) 1 0).Q_study.rate ≤ 1) :=
  ⟨by norm_num, C6_four_quadrants_contract 1 1 0 (by norm_num)⟩

/-- C5: loading after saving round-trips the model. In the exact
embedding the three numeric arrays are recovered exactly (np.save/np.load
round-trip float64 arrays bit-exactly), which in particular is equality
within 1e-10. -/
theorem C5_save_load_roundtrip {d k : ℕ} (m : SVDModel d k) (dir : ModelDir d k) :
    SVDModel.load (m.save dir) = some m := rfl

/-- C10: load reads only the three array artifacts and never the metadata
record: any directory holding the three arrays loads to the same model
whether the metadata slot is a valid record, malformed, or absent, and
two directories differing only in the metadata slot load identically. -/
theorem C10_load_ignores_meta {d k : ℕ} (mu : Fin d → ℚ)
    (comps : Matrix (Fin k) (Fin d) ℚ) (ev : Fin k → ℚ)
    (meta : Option MetaFile) (dir : ModelDir d k) (m1 m2 : Option MetaFile) :
    SVDModel.load ⟨some mu, some comps, some ev, meta⟩ =
      some ⟨mu, comps, ev⟩ ∧
    SVDModel.load { dir with metaFile := m1 } =
      SVDModel.load { dir with metaFile := m2 } :=
  ⟨rfl, rfl⟩

/-- C4: fit_svd returns a model whose mu is the zero vector of length d,
whose components matrix has shape k x d (enforced by the result type
SVDModel d k), and whose explained-variance vector has length k with
non-negative, decreasing entries, regardless of the method: the fitted
attributes of the sklearn decomposition are passed through unchanged, so
the non-negativity and ordering guaranteed by the sklearn contract (the
hypotheses on the backend) carry over to the returned model for every
method branch. -/
theorem C4_fit_svd_contract {n d k : ℕ} (b : SVDBackend n d k)
    (Vn : Matrix (Fin n) (Fin d) ℚ) (seed : ℤ) (method : String)
    (hnn : ∀ meth i, 0 ≤ b.ev meth seed Vn i)
    (hmono : ∀ meth (i j : Fin k), i ≤ j → b.ev meth seed Vn j ≤ b.ev meth seed Vn i) :
    ∃ m : SVDModel d k, fitSvdE b Vn seed method = Except.ok m ∧
      m.mu = 0 ∧ (∀ i, 0 ≤ m.explained_var i) ∧
      ∀ i j : Fin k, i ≤ j → m.explained_var j ≤ m.explained_var i := by
  unfold fitSvdE
  split_ifs with h1 h2
  · exact ⟨_, rfl, rfl, hnn _, hmono _⟩
  · exact ⟨_, rfl, rfl, hnn _, hmono _⟩
  · exact ⟨_, rfl, rfl, hnn _, hmono _⟩

/-- C4 witness: the fit contract instantiated with a concrete constant
backend on a 2 x 2 input with k = 2 and method "auto". -/
theorem C4_fit_svd_contract_witness :
    (∀ meth i, (0 : ℚ) ≤ constBackend.ev meth 42 (1 : Matrix (Fin 2) (Fin 2) ℚ) i) ∧
    (∀ meth (i j : Fin 2), i ≤ j →
      constBackend.ev meth 42 (1 : Matrix (Fin 2) (Fin 2) ℚ) j ≤
        constBackend.ev meth 42 (1 : Matrix (Fin 2) (Fin 2) ℚ) i) ∧
    ∃ m : SVDModel 2 2, fitSvdE constBackend (1 : Matrix (Fin 2) (Fin 2) ℚ) 42 "auto" =
        Except.ok m ∧
      m.mu = 0 ∧ (∀ i, 0 ≤ m.explained_var i) ∧
      ∀ i j : Fin 2, i ≤ j → m.explained_var j ≤ m.explained_var i :=
  ⟨fun _ _ => zero_le_one, fun _ _ _ _ => le_refl 1,
   C4_fit_svd_contract constBackend (1 : Matrix (Fin 2) (Fin 2) ℚ) 42 "auto"
     (fun _ _ => zero_le_one) (fun _ _ _ _ => le_refl 1)⟩

/-- C8 counterexample: on an empty input (the 1 x 0 zero-column matrix)
learn_projectors_linear does not fail with InvalidInput: the function
body contains no validation, processes the empty matrix and returns the
(empty) projector pair successfully. -/
theorem C8_invalid_input_counterexample :
    isOkE (learnProjectorsLinearE svdStub10 (0 : Matrix (Fin 1) (Fin 0) ℚ) 1) = true ∧
    learnProjectorsLinearE svdStub10 (0 : Matrix (Fin 1) (Fin 0) ℚ) 1 =
      Except.ok (1, 0) :=
  ⟨rfl, congrArg Except.ok (Subsingleton.elim _ _)⟩

/-- C8 amended: learn_projectors_linear performs no input validation and
never signals InvalidInput on any input, empty or not: for every input
matrix and rank, and every SVD backend, it returns a projector pair. In
the code, non-finite values are rejected only inside the numpy SVD call
(a library error), never as an InvalidInput condition of this function. -/
theorem C8_no_invalid_input_amended {n d : ℕ}
    (svdVt : Matrix (Fin n) (Fin d) ℚ → Matrix (Fin (min n d)) (Fin d) ℚ)
    (X : Matrix (Fin n) (Fin d) ℚ) (r : ℕ) :
    isOkE (learnProjectorsLinearE svdVt X r) = true := rfl

/-- C9 counterexample: with requested rank k = 5 on a 2 x 2 input
(k far outside [1, min(n, d)] = [1, 2]), fit_svd does not fail with
InvalidRank: the function body contains no rank validation and returns
the model built from the backend output. -/
theorem C9_invalid_rank_counterexample :
    isOkE (fitSvdE stubBackend225 (1 : Matrix (Fin 2) (Fin 2) ℚ) 42 "truncated") = true ∧
    fitSvdE stubBackend225 (1 : Matrix (Fin 2) (Fin 2) ℚ) 42 "truncated" =
      Except.ok ⟨0, 0, 0⟩ :=
  ⟨rfl, rfl⟩

/-- C9 amended: fit_svd performs no rank validation and never signals
InvalidRank for any k: the requested rank is handed to the sklearn
backend unchecked (the backend library may reject it with its own error,
e.g. TruncatedSVD requires k strictly below the number of features, but
that is a library error, not an InvalidRank condition of this
function). -/
theorem C9_no_invalid_rank_amended {n d k : ℕ} (b : SVDBackend n d k)
    (Vn : Matrix (Fin n) (Fin d) ℚ) (seed : ℤ) (method : String) :
    isOkE (fitSvdE b Vn seed method) = true := by
  unfold fitSvdE
  split_ifs <;> rfl

lemma length_flatMap_const {α β : Type} (f : α → List β) (c : ℕ)
    (hf : ∀ a, (f a).length = c) :
    ∀ l : List α, (l.flatMap f).length = c * l.length
  | [] => by simp
  | a :: l => by
    have ih := length_flatMap_const f c hf l
    simp only [List.flatMap_cons, List.length_append, hf a, ih, List.length_cons]
    ring

/-- C7: the feature extractor computes tau[j] as the tail_q quantile of
the absolute values of column j, frac_tail[j] as the fraction of rows
with absolute value strictly above tau[j] (a fraction in [0, 1]), and the
per-dimension mean/std/tail entries of the output record cover exactly
the first min(6, d) dimensions, hence at most six, regardless of the
number of columns of Z: the record has 4 aggregate entries plus
3 * min(6, d) per-dimension entries. -/
theorem C7_qstudy_contract {n d : ℕ} (sqrtA : ℚ → ℚ)
    (Z : Matrix (Fin n) (Fin d) ℚ) (tail_q : ℚ) (hn : 0 < n) :
    (∀ j, tauQ Z tail_q j = npQuantile tail_q (colAbsList Z j)) ∧
    (∀ j, fracTailQ Z tail_q j = ((Finset.univ.filter fun i : Fin n =>
        tauQ Z tail_q j < |Z i j|).card : ℚ) / n) ∧
    (∀ j, 0 ≤ fracTailQ Z tail_q j ∧ fracTailQ Z tail_q j ≤ 1) ∧
    (computeQstudyVectors sqrtA Z tail_q).length = 4 + 3 * min 6 d ∧
    min 6 d ≤ 6 := by
  refine ⟨fun j => rfl, fun j => rfl, fun j => ⟨?_, ?_⟩, ?_, Nat.min_le_left 6 d⟩
  · exact div_nonneg (Nat.cast_nonneg _) (Nat.cast_nonneg _)
  · unfold fracTailQ
    rw [div_le_one (by exact_mod_cast hn)]
    have h := Finset.card_filter_le (Finset.univ : Finset (Fin n)) fun i =>
      tauQ Z tail_q j < |Z i j|
    have h2 : (Finset.univ : Finset (Fin n)).card = n := by simp
    exact_mod_cast h.trans_eq h2
  · simp only [computeQstudyVectors]
    rw [List.length_append]
    have h3 : ∀ j : Fin d, ([("comp" ++ toString j.val ++ "_mean", colMeanV Z j),
        ("comp" ++ toString j.val ++ "_std", sqrtA (colVar Z j)),
        ("comp" ++ toString j.val ++ "_tail", fracTailQ Z tail_q j)] :
          List (String × ℚ)).length = 3 := fun _ => rfl
    rw [length_flatMap_const _ 3 h3 _, List.length_take, List.length_finRange]
    simp

/-- C7 witness: the feature contract instantiated on the 2 x 2 zero
matrix with tail quantile 0.997 and the identity standing in for the
square root. -/
theorem C7_qstudy_contract_witness :
    (0 < 2) ∧
    ((∀ j, tauQ (0 : Matrix (Fin 2) (Fin 2) ℚ) (997 / 1000) j =
        npQuantile (997 / 1000) (colAbsList (0 : Matrix (Fin 2) (Fin 2) ℚ) j)) ∧
     (∀ j, fracTailQ (0 : Matrix (Fin 2) (Fin 2) ℚ) (997 / 1000) j =
        ((Finset.univ.filter fun i : Fin 2 =>
          tauQ (0 : Matrix (Fin 2) (Fin 2) ℚ) (997 / 1000) j < |(0 : Matrix (Fin 2) (Fin 2) ℚ) i j|).card : ℚ) / 2) ∧
     (∀ j, 0 ≤ fracTailQ (0 : Matrix (Fin 2) (Fin 2) ℚ) (997 / 1000) j ∧
        fracTailQ (0 : Matrix (Fin 2) (Fin 2) ℚ) (997 / 1000) j ≤ 1) ∧
     (computeQstudyVectors id (0 : Matrix (Fin 2) (Fin 2) ℚ) (997 / 1000)).length =
        4 + 3 * min 6 2 ∧
     min 6 2 ≤ 6) :=
  ⟨by norm_num, C7_qstudy_contract id 0 (997 / 1000) (by norm_num)⟩

end Q4
